import Mathlib

/-!
Verification development for the stockflow-web repository.

The definitions below are a shallow embedding of the repository's
TypeScript source:

* `Stockflow.Gateway` models `src/services/geminiService.ts` — each
  exported recipe is a function from the backend call's outcome (the SDK
  either throws a transport error, or returns a response whose `text`
  body is absent/empty, malformed JSON, or a parsed JSON object) to the
  value the recipe returns or the error it throws.
* `Stockflow.Ingest` models `src/components/FileUpload.tsx`
  (`handleFileChange`).
* `Stockflow.Library` models the style-library handlers of
  `src/components/WallpaperGenerator.tsx`.
* `Stockflow.Sensei` models `fetchInsights` of
  `src/components/StockSensei.tsx`.
* `Stockflow.Director` models the two-phase director workflow: the state
  held by `App` (src/unnamed/part_001) together with the `ResultDisplay`
  component state (src/unnamed/part_002), with one event per user action
  or completed asynchronous call, guarded exactly by the rendering /
  `disabled` conditions and the handlers' own early returns.
-/

namespace Stockflow

/-- JavaScript truthiness fallback `m || d` for an optional string
(`undefined` and `""` are both falsy). -/
def jsOr (m : Option String) (d : String) : String :=
  match m with
  | some t => if t = "" then d else t
  | none => d

/-- JavaScript `a || b` on two strings (`""` is falsy). -/
def jsOrStr (a b : String) : String :=
  if a = "" then b else a

/-- JavaScript `String.prototype.trim`, written structurally over the
character list so that concrete instances evaluate inside the kernel. -/
def jsTrim (s : String) : String :=
  ⟨((s.data.dropWhile Char.isWhitespace).reverse.dropWhile Char.isWhitespace).reverse⟩

/-- JavaScript `name.split('.')[0]`: the characters before the first dot
(the whole string when it has no dot, empty when it begins with a dot). -/
def fileStem (name : String) : String :=
  ⟨name.data.takeWhile (fun c => c ≠ '.')⟩

/-- JavaScript `s.startsWith(p)`, written structurally over the character
lists so that concrete instances evaluate inside the kernel. -/
def startsWithChars (s p : String) : Bool :=
  s.data.take p.data.length == p.data

namespace Gateway

/-- The body of a backend response, as seen by `JSON.parse(response.text || "{}")`:
`response.text` may be absent or empty (so `"{}"` is parsed instead), may fail
to parse, or parses to a JSON object projected to the schema's fields `α`. -/
inductive ResponseBody (α : Type) where
  | absentText
  | malformed (msg : String)
  | object (fields : α)
deriving DecidableEq

/-- Outcome of `ai.models.generateContent`: the SDK call throws (transport
failure / non-2xx; its `message` may be absent or empty, modelled `none`)
or yields a response. -/
inductive TransportResult (α : Type) where
  | thrown (msg : Option String)
  | response (body : ResponseBody α)
deriving DecidableEq

/-- An error thrown out of a gateway recipe; `message` is `none` when the
thrown value carries no (or an empty) message string. -/
structure GatewayError where
  message : Option String
deriving DecidableEq

/-- The fields of a parsed director-schema JSON object. The schema marks
`analysis` and `prompt` required, but `JSON.parse` output is cast with
`as DirectorResponse` without any check, so each field may be absent. -/
structure DirectorFields where
  title : Option String
  analysis : Option String
  prompt : Option String
deriving DecidableEq

/-- Fields of the parsed `StockSenseiResponse` JSON object: the single
`seo` object may be absent since the cast is unchecked. -/
structure StockSeo where
  titles : List String
  bestTitle : String
  keywords : String
deriving DecidableEq

structure SenseiFields where
  seo : Option StockSeo
deriving DecidableEq

structure TrendingTheme where
  title : String
  description : String
deriving DecidableEq

structure MarketEvent where
  name : String
  keywords : List String
deriving DecidableEq

/-- Fields of the parsed `MarketInsight` JSON object, each possibly absent
since the cast is unchecked. -/
structure MarketInsightFields where
  trendingThemes : Option (List TrendingTheme)
  upcomingEvents : Option (List MarketEvent)
  hotKeywords : Option (List String)
  commercialAdvice : Option String
deriving DecidableEq

/-- `generateReversePrompt` (src/services/geminiService.ts lines 162-180):
the whole call sits in `try { ... } catch (e) { throw e; }`, so a thrown
transport error or a `JSON.parse` failure is rethrown unchanged, while
`JSON.parse(response.text || "{}")` is returned as-is — an absent/empty
body yields the empty object `{}` cast to `DirectorResponse`. -/
def generateReversePrompt :
    TransportResult DirectorFields → Except GatewayError DirectorFields
  | .thrown m => .error ⟨m⟩
  | .response .absentText => .ok ⟨none, none, none⟩
  | .response (.malformed msg) => .error ⟨some msg⟩
  | .response (.object f) => .ok f

/-- `refinePromptWithFeedback`, `generateVideoPromptFromImage`,
`refineVideoPromptWithFeedback` and `generateWallpaperFusion` share the
identical `try { ... return JSON.parse(response.text || "{}") } catch (e)
{ throw e; }` shape, so they are embedded by the same outcome function. -/
def refinePromptWithFeedback :
    TransportResult DirectorFields → Except GatewayError DirectorFields :=
  generateReversePrompt

/-- `getMarketInsights` (src/services/geminiService.ts lines 77-107): any
error caught inside the `try` (transport or `JSON.parse`) is rewrapped as
`new Error(error.message || "Market Insights fetch failed.")`; a parsed
body is returned unchecked, with `|| "{}"` substituting an absent/empty
body. -/
def getMarketInsights :
    TransportResult MarketInsightFields → Except GatewayError MarketInsightFields
  | .thrown m => .error ⟨some (jsOr m "Market Insights fetch failed.")⟩
  | .response .absentText => .ok ⟨none, none, none, none⟩
  | .response (.malformed msg) => .error ⟨some (jsOr (some msg) "Market Insights fetch failed.")⟩
  | .response (.object f) => .ok f

/-- `generateStockSenseiAnalysis` (src/services/geminiService.ts lines
122-160): same shape as `getMarketInsights` with fallback message
`"StockSensei SEO generation failed."`. -/
def generateStockSenseiAnalysis :
    TransportResult SenseiFields → Except GatewayError SenseiFields
  | .thrown m => .error ⟨some (jsOr m "StockSensei SEO generation failed.")⟩
  | .response .absentText => .ok ⟨none⟩
  | .response (.malformed msg) => .error ⟨some (jsOr (some msg) "StockSensei SEO generation failed.")⟩
  | .response (.object f) => .ok f

end Gateway

/-- Media kind discriminator, `MediaType` of src/unnamed/part_000. -/
inductive MediaType where
  | image
  | video
  | text
deriving DecidableEq

/-- `MediaFile` of src/unnamed/part_000, restricted to the attributes the
workflow logic reads: the source file's name, its MIME type, the base64
payload, and the classified kind. -/
structure MediaFile where
  fileName : String
  mimeType : String
  base64Data : String
  kind : MediaType
deriving DecidableEq

/-- `DirectorResponse` of src/unnamed/part_000: optional title, required
analysis and prompt. -/
structure DirectorResponse where
  title : Option String
  analysis : String
  prompt : String
deriving DecidableEq

namespace Ingest

/-- The raw browser `File` handed to `handleFileChange`: its name, byte
size, MIME type string (`file.type`), and the base64 payload a successful
`FileReader` pass would produce. -/
structure RawFile where
  name : String
  size : Nat
  type : String
  base64 : String
deriving DecidableEq

/-- Outcome of `handleFileChange` (src/components/FileUpload.tsx lines
12-49): a validation alert (size or MIME class), a recoverable
encode-failure alert from the `FileReader` step, or the `MediaFile`
descriptor handed to `onFileSelect`. -/
inductive IngestResult where
  | sizeAlert
  | typeAlert
  | encodeAlert
  | selected (m : MediaFile)
deriving DecidableEq

/-- `handleFileChange` of src/components/FileUpload.tsx: rejects files
above `20 * 1024 * 1024` bytes, then files whose MIME type starts with
neither `image/` nor `video/`; otherwise reads the file (`readOk` models
whether the environmental `FileReader` step succeeds) and produces the
descriptor with kind `video` for `video/*` and `image` otherwise.
No gateway call occurs anywhere in this handler; a generation call can
only be issued later, after `onFileSelect` has stored the descriptor. -/
def handleFileChange (file : RawFile) (readOk : Bool) : IngestResult :=
  if file.size > 20 * 1024 * 1024 then .sizeAlert
  else
    let isVideo := startsWithChars file.type "video/"
    let isImage := startsWithChars file.type "image/"
    if !isVideo && !isImage then .typeAlert
    else if readOk then
      .selected ⟨file.name, file.type, file.base64, if isVideo then .video else .image⟩
    else .encodeAlert

end Ingest

namespace Library

/-- `SavedStyle` of src/unnamed/part_000. -/
structure SavedStyle where
  id : String
  name : String
  analysis : String
  thumbnailUrl : String
deriving DecidableEq

/-- The auto-name of `handleImportStyle`
(src/components/WallpaperGenerator.tsx line 120):
`analysisResult.title || file.name.split('.')[0] || "New Style"`. -/
def importAutoName (title : Option String) (fileName : String) : String :=
  jsOrStr (jsOrStr (title.getD "") (fileStem fileName)) "New Style"

/-- The style-library effect of `handleImportStyle`
(src/components/WallpaperGenerator.tsx lines 95-149): build the new
`SavedStyle` (auto-named, with the freshly analysed recipe and the reduced
thumbnail), then `localStorage.setItem` the prepended collection; only
when that write succeeds is `setSavedStyles(updatedStyles)` reached, and
on a storage failure an alert is shown and the in-memory collection is
left untouched. Returns the in-memory collection after the handler and
whether the storage-failure alert fired. -/
def handleImportStyle (savedStyles : List SavedStyle) (idStr : String)
    (analysisResult : DirectorResponse) (fileName thumbnailUrl : String)
    (storeOk : Bool) : List SavedStyle × Bool :=
  let newStyle : SavedStyle :=
    ⟨idStr, importAutoName analysisResult.title fileName,
      analysisResult.analysis, thumbnailUrl⟩
  if storeOk then (newStyle :: savedStyles, false) else (savedStyles, true)

/-- The auto-name of `handleSaveStyle`
(src/components/WallpaperGenerator.tsx line 157):
`generationState.result.title || ` a timestamp label
`` `Style ${new Date().toLocaleTimeString()}` `` — the source filename is
never consulted on this path. -/
def saveAutoName (title : Option String) (timeStr : String) : String :=
  jsOrStr (title.getD "") ("Style " ++ timeStr)

/-- `handleSaveStyle` (src/components/WallpaperGenerator.tsx lines
153-189): early return unless a result exists and a style source (either
an uploaded style image or an active saved style) is present; thumbnail is
re-derived from the uploaded style image when present (`styleImageThumb`
models `createPersistentThumbnail`'s output), else reused from the active
saved style; the prepended collection is written to storage first, and the
in-memory collection is updated only on a successful write, with an alert
on failure. Returns the in-memory collection after the handler and
whether the storage-failure alert fired. -/
def handleSaveStyle (savedStyles : List SavedStyle) (idStr : String)
    (result : Option DirectorResponse) (styleImage : Option MediaFile)
    (activeSavedStyle : Option SavedStyle) (styleImageThumb timeStr : String)
    (storeOk : Bool) : List SavedStyle × Bool :=
  match result with
  | none => (savedStyles, false)
  | some r =>
    if styleImage.isNone && activeSavedStyle.isNone then (savedStyles, false)
    else
      let name := saveAutoName r.title timeStr
      let thumbnailUrl :=
        match styleImage, activeSavedStyle with
        | some _, _ => styleImageThumb
        | none, some s => s.thumbnailUrl
        | none, none => ""
      let newStyle : SavedStyle := ⟨idStr, name, r.analysis, thumbnailUrl⟩
      if storeOk then (newStyle :: savedStyles, false) else (savedStyles, true)

end Library

namespace Sensei

/-- `MarketInsight` of src/unnamed/part_000 (all fields present, as the
component state after a successful fetch). -/
structure MarketInsight where
  trendingThemes : List Gateway.TrendingTheme
  upcomingEvents : List Gateway.MarketEvent
  hotKeywords : List String
  commercialAdvice : String
deriving DecidableEq

/-- The `StockSensei` component state touched by `fetchInsights`:
`insights`, `selectedEvent`, and the SEO `error` state that the insight
fetch never writes. -/
structure SenseiState where
  insights : Option MarketInsight
  selectedEvent : Option Gateway.MarketEvent
  seoError : Option String
deriving DecidableEq

/-- `fetchInsights` of src/components/StockSensei.tsx lines 21-33, as a
function of the `getMarketInsights` call's outcome: on success the
snapshot is replaced and the first upcoming event (if any) becomes the
selection; on failure only `console.error` runs, leaving every state
field unchanged. -/
def fetchInsights (s : SenseiState)
    (outcome : Except (Option String) MarketInsight) : SenseiState :=
  match outcome with
  | .ok data =>
      { s with
        insights := some data
        selectedEvent :=
          match data.upcomingEvents with
          | e :: _ => some e
          | [] => s.selectedEvent }
  | .error _ => s

end Sensei

namespace Director

/-- Workflow phase of src/unnamed/part_002 line 19. -/
inductive Phase where
  | imagePrompt
  | videoPrompt
deriving DecidableEq

/-- `activeTab` of src/unnamed/part_002 line 22. -/
inductive ActiveTab where
  | none
  | refine
  | imageToVideo
deriving DecidableEq

/-- The combined director-mode state: `media` and `generationState` held
by `App` (src/unnamed/part_001 lines 15-20) together with the
`ResultDisplay` component state (src/unnamed/part_002 lines 19-35).
`ResultDisplay` is mounted only while `media` is set, so resetting or
selecting a file re-creates its state at the initial values. The
`isLoading`/`isRefining` flags are omitted: each asynchronous call is
modelled as one atomic event carrying the call's outcome, and both flags
are false in every state between events. -/
structure AppState where
  media : Option MediaFile
  result : Option DirectorResponse
  error : Option String
  phase : Phase
  activeTab : ActiveTab
  feedbackText : String
  generatedImage : Option MediaFile
  badResultImage : Option MediaFile
  badResultVideo : Option MediaFile
deriving DecidableEq

/-- The state on first render: no media, empty generation state, fresh
`ResultDisplay` defaults. -/
def initialState : AppState :=
  { media := none, result := none, error := none, phase := .imagePrompt,
    activeTab := .none, feedbackText := "", generatedImage := none,
    badResultImage := none, badResultVideo := none }

/-- One user action or completed asynchronous call. Call events carry the
gateway outcome: `generate` failures carry `err.message` (possibly
absent), while `refineSubmit`/`advanceSubmit` failures only trigger an
`alert`, so their payload is irrelevant. -/
inductive Event where
  | fileSelect (m : MediaFile)
  | reset
  | generate (o : Except (Option String) DirectorResponse)
  | refineSubmit (o : Except Unit DirectorResponse)
  | advanceSubmit (o : Except Unit DirectorResponse)
  | toggleRefineTab
  | toggleNextStepTab
  | setFeedback (t : String)
  | attachBadImage (m : MediaFile)
  | clearBadImage
  | attachBadVideo (m : MediaFile)
  | clearBadVideo
  | attachGoodImage (m : MediaFile)
  | clearGoodImage

/-- `hasBadMedia` of `handleRefineSubmit` (src/unnamed/part_002 line 117):
`phase === 'image-prompt' ? !!badResultImage : !!badResultVideo`. -/
def hasBadMedia (s : AppState) : Bool :=
  match s.phase with
  | .imagePrompt => s.badResultImage.isSome
  | .videoPrompt => s.badResultVideo.isSome

/-- The control decision taken by `handleRefineSubmit`
(src/unnamed/part_002 lines 115-149): early return without a result;
validation alert when the trimmed feedback is empty and no
phase-appropriate bad media is attached; otherwise dispatch the
image-refine call, or in the video phase either hit the
`"Missing asset context"` throw (no call dispatched) or dispatch the
video-refine call. -/
inductive RefineDecision where
  | noResult
  | validationAlert
  | dispatchImageRefine
  | missingAssetError
  | dispatchVideoRefine
deriving DecidableEq

def refineDecision (s : AppState) : RefineDecision :=
  if s.result.isNone then .noResult
  else if jsTrim s.feedbackText == "" && !hasBadMedia s then .validationAlert
  else
    match s.phase with
    | .imagePrompt => .dispatchImageRefine
    | .videoPrompt =>
        if s.generatedImage.isNone then .missingAssetError else .dispatchVideoRefine

/-- Fallback message applied by `handleGenerate`'s catch
(src/unnamed/part_001 line 42). -/
def generateFallback : String := "Something went wrong during generation."

/-- Whether an event can fire in a state: the conjunction of the source's
rendering conditions, `disabled` attributes, and handler early-return
guards. `fileSelect` needs the upload zone (no media yet); `reset` and
the call/tab/attachment events need their buttons and panels rendered
(src/unnamed/part_001 lines 100-110, src/unnamed/part_002 lines 205,
226, 254, 268-409) and, for `refineSubmit`, the submit button's
`disabled` condition (src/unnamed/part_002 line 368); `generate` fires
from the initial generate button (no result yet) or from the retry link
shown while an error is displayed (src/unnamed/part_002 line 490). -/
def enabled (s : AppState) : Event → Bool
  | .fileSelect _ => s.media.isNone
  | .reset => s.media.isSome
  | .generate _ => s.media.isSome && (s.result.isNone || s.error.isSome)
  | .refineSubmit _ =>
      s.result.isSome && s.activeTab == .refine &&
        (!(jsTrim s.feedbackText == "") || s.badResultImage.isSome ||
          s.badResultVideo.isSome)
  | .advanceSubmit _ =>
      s.result.isSome && s.activeTab == .imageToVideo && s.generatedImage.isSome
  | .toggleRefineTab => s.result.isSome
  | .toggleNextStepTab => s.result.isSome && s.phase == .imagePrompt
  | .setFeedback _ => s.result.isSome && s.activeTab == .refine
  | .attachBadImage _ =>
      s.result.isSome && s.activeTab == .refine && s.phase == .imagePrompt &&
        s.badResultImage.isNone
  | .clearBadImage =>
      s.result.isSome && s.activeTab == .refine && s.phase == .imagePrompt &&
        s.badResultImage.isSome
  | .attachBadVideo _ =>
      s.result.isSome && s.activeTab == .refine && s.phase == .videoPrompt &&
        s.badResultVideo.isNone
  | .clearBadVideo =>
      s.result.isSome && s.activeTab == .refine && s.phase == .videoPrompt &&
        s.badResultVideo.isSome
  | .attachGoodImage _ =>
      s.result.isSome && s.activeTab == .imageToVideo && s.generatedImage.isNone
  | .clearGoodImage =>
      s.result.isSome && s.activeTab == .imageToVideo && s.generatedImage.isSome

/-- State change performed by each event, from the handlers:
`handleFileSelect`/`handleReset`/`handleGenerate`/`handleUpdateResult`
(src/unnamed/part_001 lines 22-49) and `handleRefineSubmit`/
`handleVideoPromptSubmit` plus the inline setters (src/unnamed/part_002).
A failed `generate` stores `err.message || fallback` and clears the
result (src/unnamed/part_001 lines 38-44); a failed refine or advance
only raises an `alert`, leaving all state unchanged; a successful refine
overwrites the result, clears the feedback and both bad-media slots, and
closes the tab (src/unnamed/part_002 lines 151-155); a successful
advance overwrites the result, switches the phase to `video-prompt` and
closes the tab (lines 170-172). -/
def applyEvent (s : AppState) : Event → AppState
  | .fileSelect m => { initialState with media := some m }
  | .reset => initialState
  | .generate o =>
      match o with
      | .ok r => { s with result := some r, error := none }
      | .error m => { s with result := none, error := some (jsOr m generateFallback) }
  | .refineSubmit o =>
      match refineDecision s with
      | .dispatchImageRefine | .dispatchVideoRefine =>
          match o with
          | .ok r =>
              { s with
                  result := some r,
                  feedbackText := "",
                  badResultImage := none,
                  badResultVideo := none,
                  activeTab := .none }
          | .error _ => s
      | _ => s
  | .advanceSubmit o =>
      match o with
      | .ok r => { s with result := some r, phase := .videoPrompt, activeTab := .none }
      | .error _ => s
  | .toggleRefineTab =>
      { s with activeTab := if s.activeTab == .refine then .none else .refine }
  | .toggleNextStepTab =>
      { s with activeTab := if s.activeTab == .imageToVideo then .none else .imageToVideo }
  | .setFeedback t => { s with feedbackText := t }
  | .attachBadImage m => { s with badResultImage := some m }
  | .clearBadImage => { s with badResultImage := none }
  | .attachBadVideo m => { s with badResultVideo := some m }
  | .clearBadVideo => { s with badResultVideo := none }
  | .attachGoodImage m => { s with generatedImage := some m }
  | .clearGoodImage => { s with generatedImage := none }

/-- One transition of the director workflow. -/
def Step (s : AppState) (e : Event) (s' : AppState) : Prop :=
  enabled s e = true ∧ s' = applyEvent s e

/-- States the running application can actually be in. -/
inductive Reachable : AppState → Prop where
  | init : Reachable initialState
  | next {s e s'} : Reachable s → Step s e s' → Reachable s'

/-- The inductive state invariant: a stored result implies no displayed
error and a mounted media; the video phase implies a mounted media, a
stored result, a present confirmed image, and a closed image-to-video
panel (so the confirmed image can no longer be cleared). -/
def Inv (s : AppState) : Prop :=
  (s.result.isSome = true → s.error = none ∧ s.media.isSome = true) ∧
  (s.phase = .videoPrompt →
    s.media.isSome = true ∧ s.result.isSome = true ∧
      s.generatedImage.isSome = true ∧ s.activeTab ≠ .imageToVideo)

/-- A concrete uploaded reference clip, used to exhibit reachable states. -/
def exFile : MediaFile :=
  ⟨"clip.mp4", "video/mp4", "qq", .video⟩

/-- A concrete successful director response. -/
def exResponse : DirectorResponse :=
  ⟨some "Neon Dusk", "light analysis", "cinematic portrait"⟩

/-- A concrete confirmed intermediate image. -/
def exGoodFile : MediaFile :=
  ⟨"good.png", "image/png", "rr", .image⟩

/-- A concrete successful video-prompt response. -/
def exResponse2 : DirectorResponse :=
  ⟨none, "motion analysis", "slow dolly"⟩

/-- State after uploading `exFile`. -/
def exLoaded : AppState := applyEvent initialState (.fileSelect exFile)

/-- State after a successful initial generation. -/
def exWithResult : AppState := applyEvent exLoaded (.generate (.ok exResponse))

/-- State after opening the image-to-video panel. -/
def exTabbed : AppState := applyEvent exWithResult .toggleNextStepTab

/-- State after attaching the confirmed intermediate image. -/
def exConfirmed : AppState := applyEvent exTabbed (.attachGoodImage exGoodFile)

/-- State after a successful advance into the video phase. -/
def exVideoPhase : AppState :=
  applyEvent exConfirmed (.advanceSubmit (.ok exResponse2))

theorem inv_initial : Inv initialState := by
  constructor <;> simp [initialState, Inv]

theorem inv_step {s : AppState} {e : Event} {s' : AppState}
    (hi : Inv s) (hs : Step s e s') : Inv s' := by
  obtain ⟨h1, h2⟩ := hi
  obtain ⟨hen, rfl⟩ := hs
  cases e with
  | fileSelect m =>
      exact ⟨fun hr => by simp [applyEvent, initialState] at hr,
        fun hp => by simp [applyEvent, initialState] at hp⟩
  | reset => exact inv_initial
  | generate o =>
      simp only [enabled, Bool.and_eq_true, Bool.or_eq_true] at hen
      cases o with
      | ok r =>
          refine ⟨fun _ => ⟨rfl, hen.1⟩, fun hp => ?_⟩
          obtain ⟨hm, _, hgi, htab⟩ := h2 hp
          exact ⟨hm, rfl, hgi, htab⟩
      | error m =>
          refine ⟨fun hr => by simp [applyEvent] at hr, fun hp => ?_⟩
          obtain ⟨hm, hres, hgi, htab⟩ := h2 hp
          have herr := (h1 hres).1
          rcases hen.2 with hn | hsome
          · rw [Option.isNone_iff_eq_none] at hn
            rw [hn] at hres
            exact absurd hres (by simp)
          · rw [herr] at hsome
            exact absurd hsome (by simp)
  | refineSubmit o =>
      simp only [enabled, Bool.and_eq_true, beq_iff_eq] at hen
      have hres := hen.1.1
      obtain ⟨herr, hmed⟩ := h1 hres
      cases o with
      | ok r =>
          cases hd : refineDecision s with
          | noResult => simpa only [applyEvent, hd] using And.intro h1 h2
          | validationAlert => simpa only [applyEvent, hd] using And.intro h1 h2
          | missingAssetError => simpa only [applyEvent, hd] using And.intro h1 h2
          | dispatchImageRefine =>
              simp only [applyEvent, hd]
              refine ⟨fun _ => ⟨herr, hmed⟩, fun hp => ?_⟩
              obtain ⟨_, _, hgi, _⟩ := h2 hp
              exact ⟨hmed, rfl, hgi, by simp⟩
          | dispatchVideoRefine =>
              simp only [applyEvent, hd]
              refine ⟨fun _ => ⟨herr, hmed⟩, fun hp => ?_⟩
              obtain ⟨_, _, hgi, _⟩ := h2 hp
              exact ⟨hmed, rfl, hgi, by simp⟩
      | error u =>
          cases hd : refineDecision s with
          | noResult => simpa only [applyEvent, hd] using And.intro h1 h2
          | validationAlert => simpa only [applyEvent, hd] using And.intro h1 h2
          | missingAssetError => simpa only [applyEvent, hd] using And.intro h1 h2
          | dispatchImageRefine => simpa only [applyEvent, hd] using And.intro h1 h2
          | dispatchVideoRefine => simpa only [applyEvent, hd] using And.intro h1 h2
  | advanceSubmit o =>
      simp only [enabled, Bool.and_eq_true, beq_iff_eq] at hen
      obtain ⟨⟨hres, htab⟩, hgi⟩ := hen
      obtain ⟨herr, hmed⟩ := h1 hres
      cases o with
      | ok r => exact ⟨fun _ => ⟨herr, hmed⟩, fun _ => ⟨hmed, rfl, hgi, by simp [applyEvent]⟩⟩
      | error u => exact ⟨h1, h2⟩
  | toggleRefineTab =>
      refine ⟨h1, fun hp => ?_⟩
      obtain ⟨hm, hres, hgi, _⟩ := h2 hp
      refine ⟨hm, hres, hgi, ?_⟩
      show (if s.activeTab == .refine then ActiveTab.none else .refine) ≠ .imageToVideo
      split <;> decide
  | toggleNextStepTab =>
      simp only [enabled, Bool.and_eq_true, beq_iff_eq] at hen
      refine ⟨h1, fun hp => ?_⟩
      have hv : s.phase = .videoPrompt := hp
      rw [hen.2] at hv
      exact absurd hv (by decide)
  | setFeedback t => exact ⟨h1, h2⟩
  | attachBadImage m => exact ⟨h1, h2⟩
  | clearBadImage => exact ⟨h1, h2⟩
  | attachBadVideo m => exact ⟨h1, h2⟩
  | clearBadVideo => exact ⟨h1, h2⟩
  | attachGoodImage m =>
      simp only [enabled, Bool.and_eq_true, beq_iff_eq] at hen
      refine ⟨h1, fun hp => ?_⟩
      obtain ⟨hm, hres, _, htab⟩ := h2 hp
      exact ⟨hm, hres, rfl, absurd hen.1.2 htab⟩
  | clearGoodImage =>
      simp only [enabled, Bool.and_eq_true, beq_iff_eq] at hen
      refine ⟨h1, fun hp => ?_⟩
      obtain ⟨hm, hres, _, htab⟩ := h2 hp
      exact absurd hen.1.2 htab


theorem reachable_inv {s : AppState} (hr : Reachable s) : Inv s := by
  induction hr with
  | init => exact inv_initial
  | next _ hs ih => exact inv_step ih hs

theorem exLoaded_reachable : Reachable exLoaded :=
  Reachable.next (e := .fileSelect exFile) Reachable.init ⟨by decide, rfl⟩

theorem exWithResult_reachable : Reachable exWithResult :=
  Reachable.next (e := .generate (.ok exResponse)) exLoaded_reachable
    ⟨by decide, rfl⟩

theorem exTabbed_reachable : Reachable exTabbed :=
  Reachable.next (e := .toggleNextStepTab) exWithResult_reachable
    ⟨by decide, rfl⟩

theorem exConfirmed_reachable : Reachable exConfirmed :=
  Reachable.next (e := .attachGoodImage exGoodFile) exTabbed_reachable
    ⟨by decide, rfl⟩

theorem exVideoPhase_reachable : Reachable exVideoPhase :=
  Reachable.next (e := .advanceSubmit (.ok exResponse2)) exConfirmed_reachable
    ⟨by decide, rfl⟩

theorem applyRefine_phase (s : AppState) (o : Except Unit DirectorResponse) :
    (applyEvent s (.refineSubmit o)).phase = s.phase := by
  cases o <;> cases hd : refineDecision s <;> simp [applyEvent, hd]

theorem flip_absurd {p q : Phase} (hpq : p = q)
    (h1 : p = .videoPrompt) (h2 : q = .imagePrompt) : False := by
  rw [h1, h2] at hpq
  exact absurd hpq (by decide)

end Director

/-- Claim C1: for every generation or refinement call that fails, the
previously stored active result (if any) is left unchanged — in every
reachable state, a failing generate, refine, or advance step preserves
the `result` field — and only a successful call replaces it with the new
response. -/
theorem c1_failed_calls_preserve_result (s s' : Director.AppState)
    (hr : Director.Reachable s) :
    (∀ m, Director.Step s (.generate (.error m)) s' → s'.result = s.result) ∧
    (∀ u, Director.Step s (.refineSubmit (.error u)) s' → s'.result = s.result) ∧
    (∀ u, Director.Step s (.advanceSubmit (.error u)) s' → s'.result = s.result) ∧
    (∀ r, Director.Step s (.generate (.ok r)) s' → s'.result = some r) ∧
    (∀ r, Director.Step s (.refineSubmit (.ok r)) s' →
      Director.refineDecision s = .dispatchImageRefine ∨
        Director.refineDecision s = .dispatchVideoRefine →
      s'.result = some r) ∧
    (∀ r, Director.Step s (.advanceSubmit (.ok r)) s' → s'.result = some r) := by
  have h1 := (Director.reachable_inv hr).1
  refine ⟨fun m hs => ?_, fun u hs => ?_, fun u hs => ?_,
    fun r hs => ?_, fun r hs hd => ?_, fun r hs => ?_⟩
  · obtain ⟨hen, rfl⟩ := hs
    simp only [Director.enabled, Bool.and_eq_true, Bool.or_eq_true] at hen
    show (none : Option DirectorResponse) = s.result
    rcases hen.2 with hn | hsome
    · exact (Option.isNone_iff_eq_none.mp hn).symm
    · rcases hres : s.result with _ | r0
      · rfl
      · have herr := (h1 (by rw [hres]; rfl)).1
        rw [herr] at hsome
        simp at hsome
  · obtain ⟨hen, rfl⟩ := hs
    cases hd : Director.refineDecision s <;> simp [Director.applyEvent, hd]
  · obtain ⟨hen, rfl⟩ := hs
    rfl
  · obtain ⟨hen, rfl⟩ := hs
    rfl
  · obtain ⟨hen, rfl⟩ := hs
    rcases hd with hd | hd <;> simp [Director.applyEvent, hd]
  · obtain ⟨hen, rfl⟩ := hs
    rfl

/-- Claim C1 witness: at the concrete reachable state with an uploaded
clip and no stored result, a failing generation call leaves the stored
result unchanged. -/
theorem c1_witness :
    (Director.applyEvent Director.exLoaded (.generate (.error none))).result =
      Director.exLoaded.result :=
  (c1_failed_calls_preserve_result Director.exLoaded
      (Director.applyEvent Director.exLoaded (.generate (.error none)))
      Director.exLoaded_reachable).1 none ⟨by decide, rfl⟩

/-- Claim C4: once a result exists, the refine action raises the
validation message and dispatches no gateway call exactly when the
trimmed feedback text is empty and no bad-reference media matching the
current phase's kind is attached; in every other input state the
phase-appropriate refine call is dispatched. -/
theorem c4_refine_validation_guard (s : Director.AppState)
    (hr : Director.Reachable s) (hres : s.result.isSome = true) :
    (Director.refineDecision s = .validationAlert ↔
      jsTrim s.feedbackText = "" ∧ Director.hasBadMedia s = false) ∧
    (¬(jsTrim s.feedbackText = "" ∧ Director.hasBadMedia s = false) →
      Director.refineDecision s =
        match s.phase with
        | .imagePrompt => .dispatchImageRefine
        | .videoPrompt => .dispatchVideoRefine) := by
  have hnone : ¬(s.result.isNone = true) := by
    rcases h0 : s.result with _ | r0
    · rw [h0] at hres
      simp at hres
    · simp
  have key : (jsTrim s.feedbackText == "" && !Director.hasBadMedia s) = true ↔
      (jsTrim s.feedbackText = "" ∧ Director.hasBadMedia s = false) := by
    simp [Bool.and_eq_true, Bool.not_eq_true']
  by_cases hc : (jsTrim s.feedbackText == "" && !Director.hasBadMedia s) = true
  · have hd : Director.refineDecision s = .validationAlert := by
      simp only [Director.refineDecision]
      rw [if_neg hnone, if_pos hc]
    exact ⟨⟨fun _ => key.mp hc, fun _ => hd⟩,
      fun hcon => absurd (key.mp hc) hcon⟩
  · have hc2 : ¬(jsTrim s.feedbackText = "" ∧ Director.hasBadMedia s = false) :=
      fun hx => hc (key.mpr hx)
    have hd0 : Director.refineDecision s =
        match s.phase with
        | .imagePrompt => Director.RefineDecision.dispatchImageRefine
        | .videoPrompt =>
            if s.generatedImage.isNone then Director.RefineDecision.missingAssetError
            else Director.RefineDecision.dispatchVideoRefine := by
      simp only [Director.refineDecision]
      rw [if_neg hnone, if_neg hc]
    rcases hp : s.phase with _ | _
    · simp only [hp] at hd0 ⊢
      refine ⟨⟨fun h => ?_, fun h => absurd h hc2⟩, fun _ => hd0⟩
      rw [hd0] at h
      exact absurd h (by decide)
    · have hgi := ((Director.reachable_inv hr).2 hp).2.2.1
      rcases hg : s.generatedImage with _ | g
      · rw [hg] at hgi
        simp at hgi
      · simp only [hp, hg] at hd0
        simp only [hp]
        simp only [Option.isNone_some, Bool.false_eq_true, if_false] at hd0
        refine ⟨⟨fun h => ?_, fun h => absurd h hc2⟩, fun _ => hd0⟩
        rw [hd0] at h
        exact absurd h (by decide)

/-- Claim C4 witness: at the concrete reachable state with a fresh
result, empty feedback, and no bad media, the refine action is rejected
with the validation message. -/
theorem c4_witness :
    Director.refineDecision Director.exWithResult = .validationAlert :=
  (c4_refine_validation_guard Director.exWithResult
      Director.exWithResult_reachable (by decide)).1.mpr ⟨by decide, by decide⟩

/-- Claim C5: the workflow phase transition is one-directional — from a
reachable state, the only step leaving the video phase for the image
phase is the full reset, and the only step entering the video phase from
the image phase is a successful advance with the confirmed intermediate
image present. -/
theorem c5_phase_one_directional (s s' : Director.AppState) (e : Director.Event)
    (hr : Director.Reachable s) (hs : Director.Step s e s') :
    (s.phase = .videoPrompt → s'.phase = .imagePrompt → e = .reset) ∧
    (s.phase = .imagePrompt → s'.phase = .videoPrompt →
      ∃ r, e = .advanceSubmit (.ok r) ∧ s.generatedImage.isSome = true) := by
  obtain ⟨hen, rfl⟩ := hs
  cases e with
  | fileSelect m =>
      refine ⟨fun hv hi => ?_, fun hp hi => (Director.flip_absurd rfl hi rfl).elim⟩
      have hm := ((Director.reachable_inv hr).2 hv).1
      simp only [Director.enabled] at hen
      rw [Option.isNone_iff_eq_none] at hen
      rw [hen] at hm
      simp at hm
  | reset =>
      exact ⟨fun _ _ => rfl, fun hp hi => (Director.flip_absurd rfl hi rfl).elim⟩
  | generate o =>
      cases o with
      | ok r =>
          exact ⟨fun hv hi => (Director.flip_absurd rfl hv hi).elim,
            fun hp hi => (Director.flip_absurd rfl hi hp).elim⟩
      | error m =>
          exact ⟨fun hv hi => (Director.flip_absurd rfl hv hi).elim,
            fun hp hi => (Director.flip_absurd rfl hi hp).elim⟩
  | refineSubmit o =>
      exact ⟨fun hv hi => (Director.flip_absurd (Director.applyRefine_phase s o).symm hv hi).elim,
        fun hp hi => (Director.flip_absurd (Director.applyRefine_phase s o) hi hp).elim⟩
  | advanceSubmit o =>
      cases o with
      | ok r =>
          refine ⟨fun hv hi => (Director.flip_absurd rfl rfl hi).elim, fun hp hi => ?_⟩
          simp only [Director.enabled, Bool.and_eq_true] at hen
          exact ⟨r, rfl, hen.2⟩
      | error u =>
          exact ⟨fun hv hi => (Director.flip_absurd rfl hv hi).elim,
            fun hp hi => (Director.flip_absurd rfl hi hp).elim⟩
  | toggleRefineTab =>
      exact ⟨fun hv hi => (Director.flip_absurd rfl hv hi).elim,
        fun hp hi => (Director.flip_absurd rfl hi hp).elim⟩
  | toggleNextStepTab =>
      exact ⟨fun hv hi => (Director.flip_absurd rfl hv hi).elim,
        fun hp hi => (Director.flip_absurd rfl hi hp).elim⟩
  | setFeedback t =>
      exact ⟨fun hv hi => (Director.flip_absurd rfl hv hi).elim,
        fun hp hi => (Director.flip_absurd rfl hi hp).elim⟩
  | attachBadImage m =>
      exact ⟨fun hv hi => (Director.flip_absurd rfl hv hi).elim,
        fun hp hi => (Director.flip_absurd rfl hi hp).elim⟩
  | clearBadImage =>
      exact ⟨fun hv hi => (Director.flip_absurd rfl hv hi).elim,
        fun hp hi => (Director.flip_absurd rfl hi hp).elim⟩
  | attachBadVideo m =>
      exact ⟨fun hv hi => (Director.flip_absurd rfl hv hi).elim,
        fun hp hi => (Director.flip_absurd rfl hi hp).elim⟩
  | clearBadVideo =>
      exact ⟨fun hv hi => (Director.flip_absurd rfl hv hi).elim,
        fun hp hi => (Director.flip_absurd rfl hi hp).elim⟩
  | attachGoodImage m =>
      exact ⟨fun hv hi => (Director.flip_absurd rfl hv hi).elim,
        fun hp hi => (Director.flip_absurd rfl hi hp).elim⟩
  | clearGoodImage =>
      exact ⟨fun hv hi => (Director.flip_absurd rfl hv hi).elim,
        fun hp hi => (Director.flip_absurd rfl hi hp).elim⟩

/-- Claim C5 witness: from the concrete reachable video-phase state, the
reset step is the action that re-enters the image phase. -/
theorem c5_witness : Director.Event.reset = Director.Event.reset ∧
    Director.exVideoPhase.phase = Director.Phase.videoPrompt :=
  ⟨(c5_phase_one_directional Director.exVideoPhase Director.initialState
      .reset Director.exVideoPhase_reachable ⟨by decide, rfl⟩).1
      (by decide) (by decide),
    by decide⟩

/-- Claim C10: in every reachable workflow state, being in the video
phase implies the confirmed intermediate image is present, so the
video-refine handler's missing-asset error branch is unreachable. -/
theorem c10_video_phase_asset_invariant (s : Director.AppState)
    (hr : Director.Reachable s) :
    (s.phase = .videoPrompt → s.generatedImage.isSome = true) ∧
    Director.refineDecision s ≠ .missingAssetError := by
  have hi := Director.reachable_inv hr
  refine ⟨fun hv => (hi.2 hv).2.2.1, fun hd => ?_⟩
  by_cases h0 : s.result.isNone = true
  · simp only [Director.refineDecision] at hd
    rw [if_pos h0] at hd
    exact absurd hd (by decide)
  · simp only [Director.refineDecision] at hd
    rw [if_neg h0] at hd
    by_cases h1 : (jsTrim s.feedbackText == "" && !Director.hasBadMedia s) = true
    · rw [if_pos h1] at hd
      exact absurd hd (by decide)
    · rw [if_neg h1] at hd
      rcases hp : s.phase with _ | _
      · simp only [hp] at hd
        exact absurd hd (by decide)
      · have hgi := (hi.2 hp).2.2.1
        rcases hg : s.generatedImage with _ | g
        · rw [hg] at hgi
          simp at hgi
        · simp only [hp, hg] at hd
          simp at hd

/-- Claim C10 witness: the concrete reachable video-phase state carries
its confirmed intermediate image and cannot hit the missing-asset
branch. -/
theorem c10_witness :
    Director.exVideoPhase.generatedImage.isSome = true ∧
    Director.refineDecision Director.exVideoPhase ≠ .missingAssetError :=
  ⟨(c10_video_phase_asset_invariant Director.exVideoPhase
      Director.exVideoPhase_reachable).1 (by decide),
    (c10_video_phase_asset_invariant Director.exVideoPhase
      Director.exVideoPhase_reachable).2⟩

/-- Claim C2 counterexample: an absent or empty response body is not
converted to a gateway error — `generateReversePrompt` returns it as a
success value whose required `analysis` and `prompt` fields are both
absent, and `getMarketInsights` does the same. -/
theorem c2_absent_body_not_an_error :
    Gateway.generateReversePrompt (.response .absentText) =
      .ok ⟨none, none, none⟩ ∧
    Gateway.getMarketInsights (.response .absentText) =
      .ok ⟨none, none, none, none⟩ :=
  ⟨rfl, rfl⟩

/-- Claim C2 (amended): a transport failure or a malformed
(non-parseable) JSON body is a gateway error, but an absent or empty
body is replaced by `"{}"`, parsed, and returned as a success value
with every schema field absent; field presence is never validated. -/
theorem c2_gateway_result_contract (m : Option String) (msg : String)
    (f : Gateway.DirectorFields) (g : Gateway.MarketInsightFields) :
    Gateway.generateReversePrompt (.thrown m) = .error ⟨m⟩ ∧
    Gateway.generateReversePrompt (.response (.malformed msg)) =
      .error ⟨some msg⟩ ∧
    Gateway.generateReversePrompt (.response .absentText) =
      .ok ⟨none, none, none⟩ ∧
    Gateway.generateReversePrompt (.response (.object f)) = .ok f ∧
    (Gateway.getMarketInsights (.thrown m)).isOk = false ∧
    (Gateway.getMarketInsights (.response (.malformed msg))).isOk = false ∧
    Gateway.getMarketInsights (.response .absentText) =
      .ok ⟨none, none, none, none⟩ ∧
    Gateway.getMarketInsights (.response (.object g)) = .ok g :=
  ⟨rfl, rfl, rfl, rfl, rfl, rfl, rfl, rfl⟩

/-- Claim C3 counterexample: a transport failure whose thrown value has
no message is rethrown by `generateReversePrompt` as-is — the resulting
error carries no message, so no fixed per-recipe fallback message is
attached. -/
theorem c3_messageless_error_counterexample :
    Gateway.generateReversePrompt (.thrown none) = .error ⟨none⟩ ∧
    Gateway.refinePromptWithFeedback (.thrown none) = .error ⟨none⟩ :=
  ⟨rfl, rfl⟩

/-- Claim C3 (amended): `getMarketInsights` and
`generateStockSenseiAnalysis` wrap every failure and substitute their
fixed fallback message when the backend supplied none (or an empty one);
the director-mode recipes rethrow the original error unchanged, so a
message-less failure propagates without any gateway-level fallback (the
UI callers attach their own generic text instead, e.g.
`handleGenerate`'s fallback). -/
theorem c3_fallback_messages (m : Option String) (msg : String) :
    Gateway.getMarketInsights (.thrown none) =
      .error ⟨some "Market Insights fetch failed."⟩ ∧
    Gateway.getMarketInsights (.thrown (some "")) =
      .error ⟨some "Market Insights fetch failed."⟩ ∧
    Gateway.getMarketInsights (.thrown (some "quota exceeded")) =
      .error ⟨some "quota exceeded"⟩ ∧
    Gateway.generateStockSenseiAnalysis (.thrown none) =
      .error ⟨some "StockSensei SEO generation failed."⟩ ∧
    Gateway.getMarketInsights (.response (.malformed msg)) =
      .error ⟨some (jsOr (some msg) "Market Insights fetch failed.")⟩ ∧
    Gateway.generateReversePrompt (.thrown m) = .error ⟨m⟩ ∧
    Gateway.refinePromptWithFeedback (.thrown m) = .error ⟨m⟩ ∧
    jsOr m Director.generateFallback =
      (match m with
       | some t => if t = "" then Director.generateFallback else t
       | none => Director.generateFallback) := by
  refine ⟨?_, ?_, ?_, rfl, rfl, rfl, rfl, rfl⟩ <;> rfl

/-- Claim C6: every media input of size at most `20 * 1024 * 1024` bytes
whose MIME type starts with `image/` or `video/` yields a descriptor
whose kind is `video` for `video/*` and `image` otherwise; every other
input fails with a validation alert and yields no descriptor (so no
gateway call can follow). -/
theorem c6_ingest_validation (file : Ingest.RawFile) :
    (file.size ≤ 20 * 1024 * 1024 →
      (startsWithChars file.type "image/" = true ∨
        startsWithChars file.type "video/" = true) →
      Ingest.handleFileChange file true =
        .selected ⟨file.name, file.type, file.base64,
          if startsWithChars file.type "video/" then .video else .image⟩) ∧
    (∀ readOk, 20 * 1024 * 1024 < file.size →
      Ingest.handleFileChange file readOk = .sizeAlert) ∧
    (∀ readOk, startsWithChars file.type "image/" = false →
      startsWithChars file.type "video/" = false →
      Ingest.handleFileChange file readOk = .sizeAlert ∨
        Ingest.handleFileChange file readOk = .typeAlert) ∧
    (∀ readOk m, Ingest.handleFileChange file readOk = .selected m →
      file.size ≤ 20 * 1024 * 1024 ∧
        (startsWithChars file.type "image/" = true ∨
          startsWithChars file.type "video/" = true)) := by
  refine ⟨fun hsz hmime => ?_, fun readOk hsz => ?_,
    fun readOk hi hv => ?_, fun readOk m hsel => ?_⟩
  · simp only [Ingest.handleFileChange]
    rw [if_neg (by omega)]
    cases hsv : startsWithChars file.type "video/" with
    | true => simp [hsv]
    | false =>
        rcases hmime with h | h
        · simp [hsv, h]
        · rw [h] at hsv
          exact absurd hsv (by decide)
  · simp only [Ingest.handleFileChange]
    rw [if_pos hsz]
  · by_cases hsz : file.size > 20 * 1024 * 1024
    · left
      simp only [Ingest.handleFileChange]
      rw [if_pos hsz]
    · right
      simp only [Ingest.handleFileChange]
      rw [if_neg hsz]
      simp [hi, hv]
  · by_cases hsz : file.size > 20 * 1024 * 1024
    · simp only [Ingest.handleFileChange] at hsel
      rw [if_pos hsz] at hsel
      exact absurd hsel (by simp)
    · refine ⟨by omega, ?_⟩
      by_cases hv : startsWithChars file.type "video/" = true
      · exact Or.inr hv
      · by_cases hi : startsWithChars file.type "image/" = true
        · exact Or.inl hi
        · exfalso
          simp only [Bool.not_eq_true] at hv hi
          simp only [Ingest.handleFileChange] at hsel
          rw [if_neg hsz] at hsel
          simp [hi, hv] at hsel

/-- Claim C6 witness: a 2 MB JPEG is ingested as an image descriptor and
a 25 MiB MP4 is rejected for size. -/
theorem c6_witness :
    Ingest.handleFileChange ⟨"photo.jpg", 2000000, "image/jpeg", "qq"⟩ true =
      .selected ⟨"photo.jpg", "image/jpeg", "qq", .image⟩ ∧
    Ingest.handleFileChange ⟨"big.mp4", 25 * 1024 * 1024, "video/mp4", "qq"⟩
      true = .sizeAlert := by
  constructor
  · have h := (c6_ingest_validation ⟨"photo.jpg", 2000000, "image/jpeg", "qq"⟩).1
      (by decide) (Or.inl (by decide))
    rw [h]
    decide
  · exact (c6_ingest_validation
      ⟨"big.mp4", 25 * 1024 * 1024, "video/mp4", "qq"⟩).2.1 true (by decide)

/-- Claim C7 counterexample: saving the current result with an empty
title and an uploaded style image named `photo.jpg` persists the entry
under the timestamp label `Style 12:00:00`, not under the available
filename stem `photo` — the save path never consults the filename, so
the claimed stem-before-timestamp priority does not hold. -/
theorem c7_save_ignores_stem_counterexample :
    (Library.handleSaveStyle [] "1700000000000"
        (some ⟨none, "style analysis", "style prompt"⟩)
        (some ⟨"photo.jpg", "image/jpeg", "qq", .image⟩) none
        "thumbdata" "12:00:00" true).1 =
      [⟨"1700000000000", "Style 12:00:00", "style analysis", "thumbdata"⟩] ∧
    fileStem "photo.jpg" = "photo" ∧
    ("Style 12:00:00" : String) ≠ "photo" := by
  refine ⟨rfl, by decide, by decide⟩

/-- Claim C7 (amended): a saved style created from a result with a
non-empty title is persisted under that title and placed at the front of
the collection; with an empty or absent title, import-from-image falls
back to the source filename stem and then to the fixed label
`New Style`, while save-current-result falls back directly to the
timestamp label `Style <time>` without consulting any filename. -/
theorem c7_autonaming (savedStyles : List Library.SavedStyle) (idStr : String)
    (r : DirectorResponse) (fileName thumb timeStr : String) (img : MediaFile) :
    (Library.handleImportStyle savedStyles idStr r fileName thumb true).1 =
      ⟨idStr,
        (if r.title.getD "" = "" then
          (if fileStem fileName = "" then "New Style" else fileStem fileName)
         else r.title.getD ""),
        r.analysis, thumb⟩ :: savedStyles ∧
    (Library.handleSaveStyle savedStyles idStr (some r) (some img) none thumb
        timeStr true).1 =
      ⟨idStr,
        (if r.title.getD "" = "" then "Style " ++ timeStr else r.title.getD ""),
        r.analysis, thumb⟩ :: savedStyles := by
  constructor
  · simp only [Library.handleImportStyle, Library.importAutoName, jsOrStr]
    by_cases h1 : r.title.getD "" = "" <;>
      by_cases h2 : fileStem fileName = "" <;> simp [h1, h2]
  · simp only [Library.handleSaveStyle, Library.saveAutoName, jsOrStr]
    by_cases h1 : r.title.getD "" = "" <;> simp [h1]

/-- Claim C8: when the persisted write of an imported or saved style
fails at the storage layer, the failure is reported and the in-memory
collection is left exactly as it was (never partially updated); on a
successful write the in-memory collection gains exactly the new entry at
the front. Either way the handlers never re-read storage: the in-memory
collection alone determines the session's state. -/
theorem c8_persistence_failure_policy (savedStyles : List Library.SavedStyle)
    (idStr : String) (r : DirectorResponse) (fileName thumb timeStr : String)
    (img : MediaFile) :
    Library.handleImportStyle savedStyles idStr r fileName thumb false =
      (savedStyles, true) ∧
    Library.handleImportStyle savedStyles idStr r fileName thumb true =
      (⟨idStr, Library.importAutoName r.title fileName, r.analysis, thumb⟩ ::
        savedStyles, false) ∧
    Library.handleSaveStyle savedStyles idStr (some r) (some img) none thumb
        timeStr false = (savedStyles, true) ∧
    Library.handleSaveStyle savedStyles idStr (some r) (some img) none thumb
        timeStr true =
      (⟨idStr, Library.saveAutoName r.title timeStr, r.analysis, thumb⟩ ::
        savedStyles, false) :=
  ⟨rfl, rfl, rfl, rfl⟩

/-- Claim C9: a successful market-insight refresh fully replaces the
snapshot and selects the first upcoming event whenever the snapshot has
one (in particular when the prior selection is absent or stale), leaving
the SEO error state untouched; a failed refresh leaves the whole state
unchanged and surfaces no error. -/
theorem c9_insight_refresh (s : Sensei.SenseiState) (d : Sensei.MarketInsight)
    (m : Option String) :
    (Sensei.fetchInsights s (.ok d)).insights = some d ∧
    (∀ e rest, d.upcomingEvents = e :: rest →
      (Sensei.fetchInsights s (.ok d)).selectedEvent = some e) ∧
    (d.upcomingEvents = [] →
      (Sensei.fetchInsights s (.ok d)).selectedEvent = s.selectedEvent) ∧
    (Sensei.fetchInsights s (.ok d)).seoError = s.seoError ∧
    Sensei.fetchInsights s (.error m) = s := by
  refine ⟨rfl, fun e rest he => ?_, fun he => ?_, rfl, rfl⟩
  · simp [Sensei.fetchInsights, he]
  · simp [Sensei.fetchInsights, he]

/-- Claim C9 witness: from an empty state, a successful fetch with one
upcoming event selects that event. -/
theorem c9_witness :
    (Sensei.fetchInsights ⟨none, none, none⟩
        (.ok ⟨[], [⟨"Lunar New Year", ["red", "lantern"]⟩], [], "advice"⟩)).selectedEvent =
      some ⟨"Lunar New Year", ["red", "lantern"]⟩ :=
  (c9_insight_refresh ⟨none, none, none⟩
      ⟨[], [⟨"Lunar New Year", ["red", "lantern"]⟩], [], "advice"⟩ none).2.1 _ _ rfl

end Stockflow
